import Mathlib

/-!
Verification of the libp2p `DialQueue` (connection-manager dial queue).

The development shallowly embeds the dial queue's pure control logic:

* `calculateMultiaddrs` — address discovery, resolution, peer-id
  encapsulation, transport filtering, deduplication, gating and sorting;
* `isDialable` — the side-effect-free dialability probe;
* `dialStep` — the synchronous part of `dial` (existing-connection
  short-circuit, joining an in-flight job, queue-full check, enqueue);
* `attemptLoop` — the per-job serial attempt loop over sorted addresses.

Multiaddrs and peer ids are modelled by their string forms (the code only
uses `equals`/`toString` on them, both of which coincide with string
equality); external collaborators (peer store, peer routing, resolver,
transport manager, connection gater, address sorter, the multiaddr
library's `getPeerId`/path/`Circuit.matches` inspectors) live in an `Env`
record of oracle functions, so every theorem is quantified over all
behaviours of the external world.
-/

namespace DialQueueSpec

/-- Peer ids are modelled by their string form; `PeerId.equals` is string
equality. -/
abbrev PeerId := String

/-- Multiaddrs are modelled by their string form; `Multiaddr.equals` and
`Multiaddr.toString` are identity/string equality, and `encapsulate` is
string concatenation. -/
abbrev Multiaddr := String

/-- A JavaScript `Error` as far as the dial queue inspects it: a `name`
(used to recognise `NotFoundError` / `NoPeerRoutersError`) and a
`message`. -/
structure JsError where
  name : String
  message : String
deriving DecidableEq, Repr

/-- `Address` record: `{ multiaddr, isCertified }`. -/
structure Address where
  multiaddr : Multiaddr
  isCertified : Bool
deriving DecidableEq, Repr

/-- The failures the dial pipeline can reject with: the dial queue's own
error classes plus propagated external errors (`js`). -/
inductive DialFailure where
  | dialError (msg : String)
  | dialDenied (msg : String)
  | noValidAddresses (msg : String)
  | timeout (msg : String)
  | aggregate (errors : List JsError) (msg : String)
  | js (e : JsError)
deriving DecidableEq, Repr

/-!  ## Deduplication (source lines 470–485)

The source iterates `filteredAddrs` in order over a string-keyed `Map`,
keeping the first record for each string form and OR-ing the
`isCertified` flag of later duplicates into it.  JavaScript `Map`s
preserve insertion order, so `[...dedupedAddrs.values()]` lists the kept
records in first-occurrence order. -/

/-- `Map.get(maStr) != null`: is `k` already a key in the accumulator? -/
def keyMem (k : Multiaddr) (acc : List Address) : Bool :=
  acc.any (fun b => b.multiaddr == k)

/-- One iteration of the dedup loop: OR the flag into the existing record
for this string form, or append a new entry. -/
def absorbAddr (acc : List Address) (a : Address) : List Address :=
  if keyMem a.multiaddr acc then
    acc.map (fun b =>
      if b.multiaddr == a.multiaddr then
        { b with isCertified := b.isCertified || a.isCertified }
      else b)
  else acc ++ [a]

/-- The dedup stage: fold the loop body over the filtered addresses,
starting from an empty map. -/
def dedupAddrs (addrs : List Address) : List Address :=
  addrs.foldl absorbAddr []

/-- Specification-side: the keys of a list in first-occurrence order. -/
def firstOccurrences : List String → List String
  | [] => []
  | k :: ks => k :: firstOccurrences (ks.filter (fun x => x != k))
termination_by l => l.length
decreasing_by
  simp only [List.length_cons]
  exact Nat.lt_succ_of_le (List.length_filter_le _ _)

/-- Specification-side dedup: one record per string form, in
first-occurrence order, whose flag is the OR of the flags of all records
sharing that string form. -/
def dedupAddrsSpec (addrs : List Address) : List Address :=
  (firstOccurrences (addrs.map (fun a => a.multiaddr))).map
    (fun k => ⟨k, (addrs.filter (fun a => a.multiaddr == k)).any (fun a => a.isCertified)⟩)

/-- A record with its flag OR-ed with the flags of all same-keyed records
of `l`. -/
def mergeFlags (l : List Address) (b : Address) : Address :=
  ⟨b.multiaddr, b.isCertified || (l.filter (fun a => a.multiaddr == b.multiaddr)).any (fun a => a.isCertified)⟩

/-!  ## The environment of external collaborators

`calculateMultiaddrs` consults the local peer id, the connection gater,
the peer store, peer routing, the multiaddr resolver, the transport
manager, the (configurable) address sorter and, in `isDialable`, the
`Circuit` matcher of the multiaddr library.  All of these are external to
the dial queue; they are modelled as oracle functions so that every
theorem quantifies over all of their behaviours.  Fallible collaborators
return `Except JsError`. -/

structure Env where
  localPeerId : PeerId
  /-- `connectionGater.denyDialPeer?` — `none` models an absent method. -/
  denyDialPeer : Option (PeerId → Bool)
  /-- `peerStore.get(peerId)`, projected to `peer.addresses`. -/
  peerStoreGet : PeerId → Except JsError (List Address)
  /-- `peerRouting.findPeer(peerId)`, projected to `peerInfo.multiaddrs`. -/
  findPeer : PeerId → Except JsError (List Multiaddr)
  /-- `resolveMultiaddrs(ma, ...)`. -/
  resolve : Multiaddr → Except JsError (List Multiaddr)
  /-- `ma.getPeerId()`. -/
  getPeerIdOf : Multiaddr → Option PeerId
  /-- whether `ma.protos().pop()?.path === true`. -/
  lastProtoPath : Multiaddr → Bool
  /-- `transportManager.dialTransportForMultiaddr(ma) != null`. -/
  dialTransportFor : Multiaddr → Bool
  /-- `connectionGater.denyDialMultiaddr?` — `none` models an absent method. -/
  denyDialMultiaddr : Option (Multiaddr → Bool)
  /-- the configured `addressSorter` (or, when none was configured, the
  `defaultAddressSorter`, which lives outside this repository). -/
  sorter : List Address → List Address
  /-- `Circuit.matches(ma)` of `@multiformats/multiaddr-matcher`. -/
  circuitMatches : Multiaddr → Bool

/-- `(await denyDialPeer?.(peerId)) === true`. -/
def denyDialPeerSays (env : Env) (pid : PeerId) : Bool :=
  match env.denyDialPeer with
  | some f => f pid
  | none => false

/-- Address discovery (source lines 360–404): when the seed is empty, load
addresses from the peer store (swallowing `NotFoundError`, propagating
everything else), then — if still empty — ask peer routing (logging
non-`NoPeerRoutersError` failures but swallowing every routing error). -/
def discoverAddrs (env : Env) (pid : PeerId) (addrs : List Address) :
    Except DialFailure (List Address) :=
  let fromStore : Except DialFailure (List Address) :=
    if addrs.isEmpty then
      match env.peerStoreGet pid with
      | .ok peerAddresses => .ok (addrs ++ peerAddresses)
      | .error e => if e.name == "NotFoundError" then .ok addrs else .error (.js e)
    else .ok addrs
  match fromStore with
  | .error f => .error f
  | .ok addrs1 =>
    if addrs1.isEmpty then
      match env.findPeer pid with
      | .ok mas => .ok (addrs1 ++ mas.map (fun m => ⟨m, false⟩))
      | .error _ => .ok addrs1
    else .ok addrs1

/-- Resolution stage (source lines 409–428): resolve every address; when
resolution returns exactly one address equal to the input, keep the
original record, otherwise replace it by the resolved set with
`isCertified := false`; flatten.  A resolver failure rejects the whole
stage. -/
def resolveStage (env : Env) : List Address → Except DialFailure (List Address)
  | [] => .ok []
  | addr :: rest =>
    match env.resolve addr.multiaddr with
    | .error e => .error (.js e)
    | .ok result =>
      let here :=
        if result.length == 1 && result.headD "" == addr.multiaddr then [addr]
        else result.map (fun m => (⟨m, false⟩ : Address))
      match resolveStage env rest with
      | .error f => .error f
      | .ok rs => .ok (here ++ rs)

/-- Peer-id encapsulation (source lines 431–451): append `/p2p/<peerId>`
to every non-path address that does not already carry a peer id. -/
def encapsulatePeerId (env : Env) (pid : PeerId) (addrs : List Address) : List Address :=
  addrs.map (fun addr =>
    if env.lastProtoPath addr.multiaddr then addr
    else if (env.getPeerIdOf addr.multiaddr).isNone then
      ⟨addr.multiaddr ++ "/p2p/" ++ pid, addr.isCertified⟩
    else addr)

/-- Transport / peer-id-consistency filter (source lines 453–468). -/
def filterStage (env : Env) (peerId : Option PeerId) (addrs : List Address) : List Address :=
  addrs.filter (fun addr =>
    if !(env.dialTransportFor addr.multiaddr) then false
    else
      match peerId, env.getPeerIdOf addr.multiaddr with
      | some pid, some addrPid => pid == addrPid
      | _, _ => true)

/-- Everything `calculateMultiaddrs` does after address discovery:
resolution, peer-id encapsulation, transport filtering, deduplication,
the empty check, the multiaddr gate, sorting and the final empty check
(source lines 407–523). -/
def postDiscovery (env : Env) (peerId : Option PeerId) (addrs : List Address) :
    Except DialFailure (List Address) :=
  match resolveStage env addrs with
  | .error f => .error f
  | .ok resolvedAddresses =>
    let resolved2 :=
      match peerId with
      | none => resolvedAddresses
      | some pid => encapsulatePeerId env pid resolvedAddresses
    let filteredAddrs := filterStage env peerId resolved2
    let dedupedMultiaddrs := dedupAddrs filteredAddrs
    if dedupedMultiaddrs.isEmpty then
      .error (.noValidAddresses "The dial request has no valid addresses")
    else
      let gatedAdrs :=
        match env.denyDialMultiaddr with
        | none => dedupedMultiaddrs
        | some deny => dedupedMultiaddrs.filter (fun addr => !(deny addr.multiaddr))
      let sortedGatedAddrs := env.sorter gatedAdrs
      if sortedGatedAddrs.isEmpty then
        .error (.dialDenied "The connection gater denied all addresses in the dial request")
      else .ok sortedGatedAddrs

/-- `DialQueue.calculateMultiaddrs` (source lines 340–524).  The
`multiaddrs` argument models the `Set<string>` parameter as a list in
insertion order. -/
def calculateMultiaddrs (env : Env) (peerId : Option PeerId) (multiaddrs : List String) :
    Except DialFailure (List Address) :=
  let addrs : List Address := multiaddrs.map (fun ma => ⟨ma, false⟩)
  match peerId with
  | none => postDiscovery env none addrs
  | some pid =>
    if env.localPeerId == pid then .error (.dialError "Tried to dial self")
    else if denyDialPeerSays env pid then
      .error (.dialDenied "The dial request is blocked by gater.allowDialPeer")
    else
      match discoverAddrs env pid addrs with
      | .error f => .error f
      | .ok discovered => postDiscovery env (some pid) discovered

/-- `Set.add` repeated over `xs` (source lines 203–205 and 240–244): add
each string to the set, keeping insertion order and ignoring strings
already present. -/
def addToSet (s : List String) (xs : List String) : List String :=
  xs.foldl (fun acc x => if acc.contains x then acc else acc ++ [x]) s

/-- `new Set(xs)` over strings — each element is added in turn, so the
first occurrence of each string is kept, in insertion order. -/
def dedupStrings (xs : List String) : List String :=
  addToSet [] xs

/-- `DialQueue.isDialable` (source lines 526–549).  The
`runOnLimitedConnection` option is `Option Bool` because the source
tests `options.runOnLimitedConnection === false`. -/
def isDialable (env : Env) (multiaddrs : List Multiaddr)
    (runOnLimitedConnection : Option Bool) : Bool :=
  match calculateMultiaddrs env none (dedupStrings multiaddrs) with
  | .error _ => false
  | .ok addresses =>
    if runOnLimitedConnection == some false then
      addresses.any (fun addr => !(env.circuitMatches addr.multiaddr))
    else true

/-!  ## The synchronous part of `dial` (source lines 149–222)

`dial` first scans the known connections, then the queued jobs, then
checks the queue-length bound, and only then enqueues a new job.  The
`PriorityQueue` itself is external (`@libp2p/utils/priority-queue`): the
pending jobs are modelled as the list `queue.queue` in its iteration
order, `queue.size` as its length, and `queue.add` as an insertion. -/

/-- A connection as the dial queue inspects it; `status` is the literal
status string (`"open"`, `"closing"`, `"closed"`). -/
structure Conn where
  remotePeer : PeerId
  remoteAddr : Multiaddr
  status : String
deriving DecidableEq, Repr

/-- A queued dial job's options: the optional target peer and the mutable
`Set<string>` of multiaddrs, modelled as a duplicate-free list in
insertion order. -/
structure Job where
  peerId : Option PeerId
  multiaddrs : List String
deriving DecidableEq, Repr

/-- The existing-connection scan (source lines 154–168): the first
connection, in iteration order, that matches the target by remote peer or
remote address; with `force` set nothing matches. -/
def findExistingConnection (conns : List Conn) (force : Bool)
    (peerId : Option PeerId) (multiaddrs : List Multiaddr) : Option Conn :=
  conns.find? (fun conn =>
    if force then false
    else if peerId == some conn.remotePeer then true
    else multiaddrs.any (fun addr => addr == conn.remoteAddr))

/-- The in-flight-job match (source lines 178–197): the target's peer id
equals the job's (`peerId?.equals(job.options.peerId) === true`), or the
job's address set contains one of the target's address strings. -/
def jobMatches (peerId : Option PeerId) (multiaddrs : List Multiaddr) (job : Job) : Bool :=
  (match peerId, job.peerId with
   | some pid, some jobPid => pid == jobPid
   | _, _ => false)
  || multiaddrs.any (fun ma => job.multiaddrs.contains ma)

/-- Mutate the first matching job by unioning the target's address
strings into its set (source lines 199–205). -/
def updateFirstMatch (peerId : Option PeerId) (multiaddrs : List Multiaddr) :
    List Job → List Job
  | [] => []
  | j :: rest =>
    if jobMatches peerId multiaddrs j then
      { j with multiaddrs := addToSet j.multiaddrs multiaddrs } :: rest
    else j :: updateFirstMatch peerId multiaddrs rest

/-- How a `dial` call is disposed of before any job body runs. -/
inductive SubmitResult where
  | alreadyConnected (conn : Conn)
  | joinedExisting
  | queueFull
  | enqueued
deriving DecidableEq, Repr

/-- The synchronous part of `DialQueue.dial` (source lines 149–222 and
319–326): existing-connection short-circuit, join of an overlapping
in-flight job, queue-full rejection, then enqueue of a fresh job whose
multiaddr set is `new Set(multiaddrs.map(ma => ma.toString()))`.  Returns
the disposition together with the queue contents afterwards. -/
def dialStep (conns : List Conn) (queue : List Job) (maxDialQueueLength : Nat)
    (force : Bool) (peerId : Option PeerId) (multiaddrs : List Multiaddr) :
    SubmitResult × List Job :=
  let existingConnection := findExistingConnection conns force peerId multiaddrs
  match existingConnection with
  | some conn =>
    if conn.status == "open" then (.alreadyConnected conn, queue)
    else dialStepAfterConnectionScan queue maxDialQueueLength peerId multiaddrs
  | none => dialStepAfterConnectionScan queue maxDialQueueLength peerId multiaddrs
where
  /-- source lines 178–222: the part of `dial` after the connection scan. -/
  dialStepAfterConnectionScan (queue : List Job) (maxDialQueueLength : Nat)
      (peerId : Option PeerId) (multiaddrs : List Multiaddr) : SubmitResult × List Job :=
    match queue.find? (jobMatches peerId multiaddrs) with
    | some _ => (.joinedExisting, updateFirstMatch peerId multiaddrs queue)
    | none =>
      if queue.length ≥ maxDialQueueLength then (.queueFull, queue)
      else (.enqueued, queue ++ [⟨peerId, dedupStrings multiaddrs⟩])

/-!  ## The per-job attempt loop (source lines 250–317)

Each iteration first checks the attempt cap, then performs one transport
dial.  A transport dial either yields a connection or fails with an error,
after which the composite abort signal may or may not be aborted; both
are modelled by an oracle indexed by the attempt number.  The peer-store
`merge` calls after each outcome (source lines 272–281 and 287–298) are
wrapped in `try/catch` blocks that only log, so they cannot influence the
control flow and are not modelled. -/

/-- The outcome of one `transportManager.dial` call, together with the
state of the composite abort signal observed right after a failure. -/
inductive AttemptOutcome where
  | success (conn : Conn)
  | failure (e : JsError) (signalAborted : Bool)

/-- How the job body finishes, together with the number of transport
dials that were made. -/
inductive LoopResult where
  | connected (conn : Conn) (dialsMade : Nat)
  | failed (f : DialFailure) (dialsMade : Nat)
deriving Repr, DecidableEq

/-- `dialsMade` of a `LoopResult`. -/
def LoopResult.dials : LoopResult → Nat
  | .connected _ n => n
  | .failed _ n => n

/-- The attempt loop (source lines 250–313): walk the sorted addresses,
capping transport dials at `maxPeerAddrsToDial`; a success returns the
connection; a failure with the composite signal aborted rethrows as
`TimeoutError(err.message)`; otherwise the error is accumulated, and on
exhaustion the single error (or the `AggregateError`) is thrown. -/
def attemptLoop (maxPeerAddrsToDial : Nat) (oracle : Nat → AttemptOutcome) :
    List Address → Nat → List JsError → LoopResult
  | [], dialed, errors =>
    if errors.length == 1 then .failed (.js (errors.headD ⟨"", ""⟩)) dialed
    else .failed (.aggregate errors "All multiaddr dials failed") dialed
  | _ :: rest, dialed, errors =>
    if dialed == maxPeerAddrsToDial then
      .failed (.dialError "Peer had more than maxPeerAddrsToDial") dialed
    else
      match oracle dialed with
      | .success conn => .connected conn (dialed + 1)
      | .failure e signalAborted =>
        if signalAborted then .failed (.timeout e.message) (dialed + 1)
        else attemptLoop maxPeerAddrsToDial oracle rest (dialed + 1) (errors ++ [e])

/-- Source lines 240–244: after `calculateMultiaddrs` succeeds, the string
form of every calculated address is added to the job's mutable multiaddr
set, before the attempt loop runs. -/
def jobAfterCalc (job : Job) (addrsToDial : List Address) : Job :=
  { job with multiaddrs := addToSet job.multiaddrs (addrsToDial.map (fun a => a.multiaddr)) }

instance {ε α : Type} [DecidableEq ε] [DecidableEq α] : DecidableEq (Except ε α)
  | .error e, .error f =>
    if h : e = f then .isTrue (by rw [h]) else .isFalse (fun hh => h (Except.error.inj hh))
  | .error _, .ok _ => .isFalse Except.noConfusion
  | .ok _, .error _ => .isFalse Except.noConfusion
  | .ok a, .ok b =>
    if h : a = b then .isTrue (by rw [h]) else .isFalse (fun hh => h (Except.ok.inj hh))

/-!  ## Concrete fixtures used by the counterexamples and witnesses -/

/-- A benign environment: no gater, identity resolution, every address
dialable, no sorting. -/
def cEnvBase : Env where
  localPeerId := "self"
  denyDialPeer := none
  peerStoreGet := fun _ => .ok []
  findPeer := fun _ => .ok []
  resolve := fun ma => .ok [ma]
  getPeerIdOf := fun _ => none
  lastProtoPath := fun _ => false
  dialTransportFor := fun _ => true
  denyDialMultiaddr := none
  sorter := fun l => l
  circuitMatches := fun _ => false

/-- Peer store knows nothing; peer routing fails with an error that is
*not* `NoPeerRoutersError`. -/
def cEnvRoutingErr : Env :=
  { cEnvBase with
      peerStoreGet := fun _ => .error ⟨"NotFoundError", "not found"⟩,
      findPeer := fun _ => .error ⟨"CustomRoutingError", "routing backend exploded"⟩ }

/-- The peer store itself fails with an error other than
`NotFoundError`. -/
def cEnvStoreErr : Env :=
  { cEnvBase with peerStoreGet := fun _ => .error ⟨"DatabaseError", "disk corrupt"⟩ }

/-- No transport can dial anything. -/
def cEnvNoTransport : Env :=
  { cEnvBase with dialTransportFor := fun _ => false }

/-- Every transport dial fails, and the composite signal never aborts. -/
def cOracleFail : Nat → AttemptOutcome :=
  fun _ => .failure ⟨"Error", "connection refused"⟩ false

/-- The first dial fails normally; the second fails with the composite
signal aborted. -/
def cOracleAbort : Nat → AttemptOutcome :=
  fun i => if i == 0 then .failure ⟨"Error", "connection refused"⟩ false
           else .failure ⟨"Error", "aborted mid-dial"⟩ true

/-- Two distinct failures, signal never aborted. -/
def cOracleTwoErrs : Nat → AttemptOutcome :=
  fun i => if i == 0 then .failure ⟨"ErrorA", "refused A"⟩ false
           else .failure ⟨"ErrorB", "refused B"⟩ false

/-- A closed connection to peer `P` listed before an open one. -/
def cConnsClosedFirst : List Conn :=
  [⟨"P", "addr1", "closed"⟩, ⟨"P", "addr2", "open"⟩]

/-!  ## Helper lemmas -/

theorem mergeFlags_nil (b : Address) : mergeFlags [] b = b := by
  cases b
  simp [mergeFlags]

theorem firstOccurrences_subset {k : String} : ∀ {ks : List String},
    k ∈ firstOccurrences ks → k ∈ ks := by
  intro ks
  induction ks using firstOccurrences.induct with
  | case1 => simp [firstOccurrences]
  | case2 a ks ih =>
    intro h
    rw [firstOccurrences] at h
    rcases List.mem_cons.mp h with h | h
    · simp [h]
    · exact List.mem_cons_of_mem _ (List.mem_of_mem_filter (ih h))

theorem dedupAddrsSpec_cons (a : Address) (l : List Address) :
    dedupAddrsSpec (a :: l) =
      mergeFlags l a ::
        dedupAddrsSpec (l.filter (fun x => x.multiaddr != a.multiaddr)) := by
  simp only [dedupAddrsSpec, List.map_cons, firstOccurrences]
  congr 1
  · simp [mergeFlags, List.filter_cons]
  · rw [show (l.filter (fun x => x.multiaddr != a.multiaddr)).map (fun x => x.multiaddr)
        = (l.map (fun x => x.multiaddr)).filter (fun s => s != a.multiaddr) by
      induction l with
      | nil => rfl
      | cons x xs ih => by_cases h : x.multiaddr = a.multiaddr <;> simp [List.filter_cons, h, ih]]
    apply List.map_congr_left
    intro k hk
    have hk' : k ∈ (l.map (fun x => x.multiaddr)).filter (fun s => s != a.multiaddr) :=
      firstOccurrences_subset hk
    have hne : k ≠ a.multiaddr := by
      have := List.of_mem_filter hk'
      simpa using this
    have h1 : List.filter (fun x => x.multiaddr == k) (a :: l)
        = List.filter (fun x => x.multiaddr == k) l := by
      simp [List.filter_cons, Ne.symm hne]
    have h2 : List.filter (fun x => x.multiaddr == k)
          (List.filter (fun x => x.multiaddr != a.multiaddr) l)
        = List.filter (fun x => x.multiaddr == k) l := by
      rw [List.filter_filter]
      apply List.filter_congr
      intro x _
      by_cases hx : x.multiaddr = k
      · simp [hx, hne]
      · simp [hx]
    rw [h1, h2]

theorem foldl_absorbAddr (l : List Address) : ∀ (acc : List Address),
    List.foldl absorbAddr acc l =
      acc.map (mergeFlags l) ++
        dedupAddrsSpec (l.filter (fun x => !(keyMem x.multiaddr acc))) := by
  induction l with
  | nil =>
    intro acc
    simp only [List.foldl_nil, List.filter_nil, dedupAddrsSpec, List.map_nil, firstOccurrences,
      List.append_nil]
    exact (List.map_id'' mergeFlags_nil acc).symm
  | cons a rest ih =>
    intro acc
    by_cases hmem : keyMem a.multiaddr acc = true
    · -- the key is already present: merge flags into the existing record
      have hstep : absorbAddr acc a = acc.map (fun b =>
          if b.multiaddr == a.multiaddr then
            { b with isCertified := b.isCertified || a.isCertified }
          else b) := by
        simp [absorbAddr, hmem]
      rw [List.foldl_cons, hstep, ih]
      have hkeys : ∀ k, keyMem k (acc.map (fun b =>
          if b.multiaddr == a.multiaddr then
            { b with isCertified := b.isCertified || a.isCertified }
          else b)) = keyMem k acc := by
        intro k
        simp only [keyMem, List.any_map]
        congr 1
        funext b
        by_cases hb : b.multiaddr = a.multiaddr <;> simp [hb, Function.comp]
      congr 1
      · rw [List.map_map]
        apply List.map_congr_left
        intro b _
        by_cases hb : b.multiaddr = a.multiaddr
        · simp [mergeFlags, Function.comp, hb, List.filter_cons, Bool.or_assoc]
        · simp [mergeFlags, Function.comp, hb, List.filter_cons, Ne.symm]
      · have hfa : List.filter (fun x => !(keyMem x.multiaddr acc)) (a :: rest)
            = List.filter (fun x => !(keyMem x.multiaddr acc)) rest := by
          simp [List.filter_cons, hmem]
        rw [hfa]
        congr 1
        apply List.filter_congr
        intro x _
        rw [hkeys]
    · -- new key: append the record
      have hmem' : keyMem a.multiaddr acc = false := by
        simpa using hmem
      have hstep : absorbAddr acc a = acc ++ [a] := by
        simp [absorbAddr, hmem']
      rw [List.foldl_cons, hstep, ih]
      have hnot : ∀ b ∈ acc, b.multiaddr ≠ a.multiaddr := by
        intro b hb
        intro hcontra
        have : keyMem a.multiaddr acc = true := by
          simp only [keyMem, List.any_eq_true]
          exact ⟨b, hb, by simp [hcontra]⟩
        simp [this] at hmem'
      have hfilterA : List.filter (fun x => !(keyMem x.multiaddr acc)) (a :: rest)
          = a :: List.filter (fun x => !(keyMem x.multiaddr acc)) rest := by
        simp [List.filter_cons, hmem']
      rw [hfilterA, dedupAddrsSpec_cons]
      simp only [List.map_append, List.map_cons, List.map_nil, List.append_assoc,
        List.singleton_append, List.cons_append, List.nil_append]
      congr 1
      · apply List.map_congr_left
        intro b hb
        have hbne := hnot b hb
        simp [mergeFlags, List.filter_cons, Ne.symm hbne]
      congr 1
      · -- the appended record picks up the flags of later duplicates
        have : List.filter (fun x => x.multiaddr == a.multiaddr)
              (List.filter (fun x => !(keyMem x.multiaddr acc)) rest)
            = List.filter (fun x => x.multiaddr == a.multiaddr) rest := by
          rw [List.filter_filter]
          apply List.filter_congr
          intro x _
          by_cases hx : x.multiaddr = a.multiaddr
          · simp [hx, hmem']
          · simp [hx]
        simp [mergeFlags, this]
      · congr 1
        rw [List.filter_filter]
        apply List.filter_congr
        intro x _
        simp only [keyMem, List.any_append, List.any_cons, List.any_nil,
          Bool.or_false, Bool.not_or]
        by_cases hx : x.multiaddr = a.multiaddr
        · rw [hx]
          simp
        · have h1 : (a.multiaddr == x.multiaddr) = false := by
            simpa using Ne.symm hx
          have h2 : (x.multiaddr != a.multiaddr) = true := by
            simpa [bne_iff_ne] using hx
          rw [h1, h2]
          simp

/-- The dedup stage equals its specification: one record per exact string
form, kept in first-occurrence order, flag OR-ed over all duplicates. -/
theorem dedupAddrs_eq_spec (addrs : List Address) :
    dedupAddrs addrs = dedupAddrsSpec addrs := by
  rw [dedupAddrs, foldl_absorbAddr]
  simp [keyMem]

theorem resolveStage_congr (e1 e2 : Env) (h : e1.resolve = e2.resolve) :
    ∀ addrs, resolveStage e1 addrs = resolveStage e2 addrs := by
  intro addrs
  induction addrs with
  | nil => rfl
  | cons a rest ih => simp only [resolveStage, h, ih]

/-- `postDiscovery` only consults the resolver, the multiaddr inspectors,
the transport manager, the multiaddr gate and the sorter. -/
theorem postDiscovery_congr (e1 e2 : Env)
    (hres : e1.resolve = e2.resolve) (hget : e1.getPeerIdOf = e2.getPeerIdOf)
    (hpath : e1.lastProtoPath = e2.lastProtoPath)
    (htrans : e1.dialTransportFor = e2.dialTransportFor)
    (hdeny : e1.denyDialMultiaddr = e2.denyDialMultiaddr)
    (hsort : e1.sorter = e2.sorter)
    (peerId : Option PeerId) (addrs : List Address) :
    postDiscovery e1 peerId addrs = postDiscovery e2 peerId addrs := by
  unfold postDiscovery
  rw [resolveStage_congr e1 e2 hres addrs]
  cases resolveStage e2 addrs with
  | error f => rfl
  | ok resolved =>
    cases peerId with
    | none =>
      simp only [encapsulatePeerId, filterStage, hget, hpath, htrans, hdeny, hsort]
    | some pid =>
      simp only [encapsulatePeerId, filterStage, hget, hpath, htrans, hdeny, hsort]

theorem postDiscovery_update_findPeer (env : Env) (f : PeerId → Except JsError (List Multiaddr))
    (peerId : Option PeerId) (addrs : List Address) :
    postDiscovery { env with findPeer := f } peerId addrs = postDiscovery env peerId addrs :=
  postDiscovery_congr { env with findPeer := f } env rfl rfl rfl rfl rfl rfl peerId addrs

theorem postDiscovery_update_peerStoreGet (env : Env)
    (g : PeerId → Except JsError (List Address))
    (peerId : Option PeerId) (addrs : List Address) :
    postDiscovery { env with peerStoreGet := g } peerId addrs = postDiscovery env peerId addrs :=
  postDiscovery_congr { env with peerStoreGet := g } env rfl rfl rfl rfl rfl rfl peerId addrs

theorem mem_addToSet : ∀ (xs s : List String) (x : String),
    x ∈ addToSet s xs ↔ (x ∈ s ∨ x ∈ xs) := by
  intro xs
  induction xs with
  | nil =>
    intro s x
    simp [addToSet]
  | cons y ys ih =>
    intro s x
    have step : addToSet s (y :: ys)
        = addToSet (if s.contains y then s else s ++ [y]) ys := rfl
    rw [step]
    by_cases hc : s.contains y = true
    · have hy : y ∈ s := by
        have := List.contains_iff_exists_mem_beq.mp hc
        obtain ⟨a, ha, hbeq⟩ := this
        have : y = a := by simpa using hbeq
        rw [this]; exact ha
      rw [if_pos hc, ih]
      constructor
      · rintro (h | h)
        · exact Or.inl h
        · exact Or.inr (List.mem_cons_of_mem _ h)
      · rintro (h | h)
        · exact Or.inl h
        · rcases List.mem_cons.mp h with rfl | h2
          · exact Or.inl hy
          · exact Or.inr h2
    · rw [if_neg hc, ih]
      constructor
      · rintro (h | h)
        · rcases List.mem_append.mp h with h2 | h2
          · exact Or.inl h2
          · rcases List.mem_singleton.mp h2 with rfl
            exact Or.inr (List.mem_cons_self _ _)
        · exact Or.inr (List.mem_cons_of_mem _ h)
      · rintro (h | h)
        · exact Or.inl (List.mem_append.mpr (Or.inl h))
        · rcases List.mem_cons.mp h with rfl | h2
          · exact Or.inl (List.mem_append.mpr (Or.inr (List.mem_singleton.mpr rfl)))
          · exact Or.inr h2

theorem updateFirstMatch_length (peerId : Option PeerId) (mas : List Multiaddr) :
    ∀ (queue : List Job), (updateFirstMatch peerId mas queue).length = queue.length := by
  intro queue
  induction queue with
  | nil => rfl
  | cons j rest ih =>
    by_cases h : jobMatches peerId mas j = true <;> simp [updateFirstMatch, h, ih]

theorem updateFirstMatch_found (peerId : Option PeerId) (mas : List Multiaddr) :
    ∀ (queue : List Job) (j : Job),
      queue.find? (jobMatches peerId mas) = some j →
      ∃ i : Nat, queue[i]? = some j ∧
        (updateFirstMatch peerId mas queue)[i]?
          = some { j with multiaddrs := addToSet j.multiaddrs mas } := by
  intro queue
  induction queue with
  | nil =>
    intro j h
    simp [List.find?] at h
  | cons q rest ih =>
    intro j h
    by_cases hq : jobMatches peerId mas q = true
    · have hjq : q = j := by
        have := List.find?_cons_of_pos (p := jobMatches peerId mas) rest hq
        rw [this] at h
        exact Option.some.inj h
      refine ⟨0, ?_, ?_⟩
      · rw [List.getElem?_cons_zero, hjq]
      · rw [show updateFirstMatch peerId mas (q :: rest)
            = { q with multiaddrs := addToSet q.multiaddrs mas } :: rest by
          simp [updateFirstMatch, hq]]
        rw [List.getElem?_cons_zero, hjq]
    · have h' : rest.find? (jobMatches peerId mas) = some j := by
        have := List.find?_cons_of_neg (p := jobMatches peerId mas) rest (by simpa using hq)
        rw [this] at h
        exact h
      obtain ⟨i, h1, h2⟩ := ih j h'
      refine ⟨i + 1, ?_, ?_⟩
      · simpa using h1
      · rw [show updateFirstMatch peerId mas (q :: rest)
            = q :: updateFirstMatch peerId mas rest by
          simp [updateFirstMatch, hq]]
        simpa using h2

theorem attemptLoop_dials_le (maxAddrs : Nat) (oracle : Nat → AttemptOutcome) :
    ∀ (addrs : List Address) (dialed : Nat) (errors : List JsError),
      dialed ≤ maxAddrs →
      (attemptLoop maxAddrs oracle addrs dialed errors).dials ≤ maxAddrs := by
  intro addrs
  induction addrs with
  | nil =>
    intro dialed errors h
    by_cases he : errors.length == 1 <;> simp [attemptLoop, LoopResult.dials, he, h]
  | cons a rest ih =>
    intro dialed errors h
    by_cases hd : dialed == maxAddrs
    · simp [attemptLoop, hd, LoopResult.dials, h]
    · have hlt : dialed < maxAddrs := Nat.lt_of_le_of_ne h (by simpa using hd)
      cases ho : oracle dialed with
      | success conn =>
        simp only [attemptLoop, hd, ho]
        simp [LoopResult.dials]
        omega
      | failure e ab =>
        cases ab
        · simp only [attemptLoop, hd, ho]
          simpa using ih (dialed + 1) (errors ++ [e]) hlt
        · simp only [attemptLoop, hd, ho]
          simp [LoopResult.dials]
          omega

theorem attemptLoop_cap (maxAddrs : Nat) (oracle : Nat → AttemptOutcome) :
    ∀ (addrs : List Address) (dialed : Nat) (errors : List JsError),
      dialed ≤ maxAddrs → maxAddrs - dialed < addrs.length →
      (∀ i, dialed ≤ i → i < maxAddrs → ∃ e, oracle i = .failure e false) →
      attemptLoop maxAddrs oracle addrs dialed errors
        = .failed (.dialError "Peer had more than maxPeerAddrsToDial") maxAddrs := by
  intro addrs
  induction addrs with
  | nil =>
    intro dialed errors h1 h2 _
    simp only [List.length_nil] at h2
    omega
  | cons a rest ih =>
    intro dialed errors h1 h2 h3
    by_cases hd : dialed == maxAddrs
    · have heq : dialed = maxAddrs := by simpa using hd
      simp [attemptLoop, hd, heq]
    · have hlt : dialed < maxAddrs := Nat.lt_of_le_of_ne h1 (by simpa using hd)
      obtain ⟨e, he⟩ := h3 dialed (Nat.le_refl _) hlt
      simp only [attemptLoop, hd, he, if_false, Bool.false_eq_true, reduceIte]
      exact ih (dialed + 1) (errors ++ [e]) hlt (by simp only [List.length_cons] at h2; omega)
        (fun i hi1 hi2 => h3 i (by omega) hi2)

theorem attemptLoop_exhausted (maxAddrs : Nat) (oracle : Nat → AttemptOutcome) :
    ∀ (addrs : List Address) (dialed : Nat) (acc errs : List JsError),
      errs.length = addrs.length →
      dialed + addrs.length ≤ maxAddrs →
      (∀ i, i < addrs.length → oracle (dialed + i) = .failure (errs.getD i ⟨"", ""⟩) false) →
      attemptLoop maxAddrs oracle addrs dialed acc
        = if (acc ++ errs).length == 1 then
            .failed (.js ((acc ++ errs).headD ⟨"", ""⟩)) (dialed + addrs.length)
          else .failed (.aggregate (acc ++ errs) "All multiaddr dials failed")
            (dialed + addrs.length) := by
  intro addrs
  induction addrs with
  | nil =>
    intro dialed acc errs hlen _ _
    have herrs : errs = [] := List.length_eq_zero.mp (by simpa using hlen)
    subst herrs
    simp [attemptLoop]
  | cons a rest ih =>
    intro dialed acc errs hlen hmax h3
    cases errs with
    | nil => simp at hlen
    | cons e0 erest =>
      have hlt : dialed < maxAddrs := by
        simp only [List.length_cons] at hmax
        omega
      have hd : (dialed == maxAddrs) = false := by
        simp only [beq_eq_false_iff_ne]
        omega
      have he0 : oracle dialed = .failure e0 false := by
        have := h3 0 (by simp)
        simpa using this
      simp only [attemptLoop, hd, he0, Bool.false_eq_true, reduceIte]
      rw [ih (dialed + 1) (acc ++ [e0]) erest (by simpa using hlen)
        (by simp only [List.length_cons] at hmax; omega)
        (fun i hi => by
          have := h3 (i + 1) (by simpa using Nat.succ_lt_succ hi)
          have harith : dialed + (i + 1) = dialed + 1 + i := by omega
          rw [harith] at this
          simpa using this)]
      rw [show (acc ++ [e0]) ++ erest = acc ++ (e0 :: erest) by
        rw [List.append_assoc, List.singleton_append]]
      have : dialed + 1 + erest.length = dialed + (e0 :: erest).length := by
        simp only [List.length_cons]; omega
      have hrest : erest.length = rest.length := by simpa using hlen
      rw [hrest] at this
      rw [this, show (e0 :: erest).length = (a :: rest).length by
        simp only [List.length_cons]; omega]

theorem calculateMultiaddrs_congr (env env' : Env)
    (hlocal : env.localPeerId = env'.localPeerId)
    (hgdeny : env.denyDialPeer = env'.denyDialPeer)
    (hres : env.resolve = env'.resolve)
    (hget : env.getPeerIdOf = env'.getPeerIdOf)
    (hpath : env.lastProtoPath = env'.lastProtoPath)
    (htrans : env.dialTransportFor = env'.dialTransportFor)
    (hdeny : env.denyDialMultiaddr = env'.denyDialMultiaddr)
    (hsort : env.sorter = env'.sorter)
    (pid : PeerId) (mas : List String)
    (hdisc : discoverAddrs env pid (mas.map (fun ma => ⟨ma, false⟩))
        = discoverAddrs env' pid (mas.map (fun ma => ⟨ma, false⟩))) :
    calculateMultiaddrs env (some pid) mas = calculateMultiaddrs env' (some pid) mas := by
  simp only [calculateMultiaddrs]
  rw [hlocal, show denyDialPeerSays env pid = denyDialPeerSays env' pid by
    simp [denyDialPeerSays, hgdeny], hdisc]
  by_cases hl : (env'.localPeerId == pid) = true
  · simp [hl]
  · have hl' : (env'.localPeerId == pid) = false := by simpa using hl
    simp only [hl', Bool.false_eq_true, reduceIte]
    by_cases hg : denyDialPeerSays env' pid = true
    · simp [hg]
    · have hg' : denyDialPeerSays env' pid = false := by simpa using hg
      simp only [hg', Bool.false_eq_true, reduceIte]
      cases discoverAddrs env' pid (mas.map (fun ma => ⟨ma, false⟩)) with
      | error f => rfl
      | ok l => exact postDiscovery_congr env env' hres hget hpath htrans hdeny hsort _ l

theorem attemptLoop_abort (maxAddrs k : Nat) (oracle : Nat → AttemptOutcome) (e : JsError)
    (hk : oracle k = .failure e true) (hmax : k < maxAddrs) :
    ∀ (addrs : List Address) (dialed : Nat) (acc : List JsError),
      dialed ≤ k → k - dialed < addrs.length →
      (∀ i, dialed ≤ i → i < k → ∃ e2, oracle i = .failure e2 false) →
      attemptLoop maxAddrs oracle addrs dialed acc = .failed (.timeout e.message) (k + 1) := by
  intro addrs
  induction addrs with
  | nil =>
    intro dialed acc h1 h2 _
    simp only [List.length_nil] at h2
    omega
  | cons a rest ih =>
    intro dialed acc h1 h2 h3
    have hd : (dialed == maxAddrs) = false := by
      simp only [beq_eq_false_iff_ne]
      omega
    by_cases hdk : dialed = k
    · subst hdk
      simp [attemptLoop, hd, hk]
    · have hlt : dialed < k := Nat.lt_of_le_of_ne h1 hdk
      obtain ⟨e2, he2⟩ := h3 dialed (Nat.le_refl _) hlt
      simp only [attemptLoop, hd, he2, Bool.false_eq_true, reduceIte]
      exact ih (dialed + 1) (acc ++ [e2]) hlt
        (by simp only [List.length_cons] at h2; omega)
        (fun i hi1 hi2 => h3 i (by omega) hi2)

/-!  ## Claim theorems -/

/-- C8: deduplication in `calculateMultiaddrs` keys on the multiaddr's
exact string form, keeps the first occurrence of each string in its
original position, and sets the surviving record's `isCertified` flag to
the OR of the flags of all records sharing that string (sticky-true). -/
theorem dialQueue_c8 (addrs : List Address) :
    dedupAddrs addrs = dedupAddrsSpec addrs ∧
    (dedupAddrs addrs).map (fun a => a.multiaddr)
      = firstOccurrences (addrs.map (fun a => a.multiaddr)) := by
  refine ⟨dedupAddrs_eq_spec addrs, ?_⟩
  rw [dedupAddrs_eq_spec addrs]
  simp only [dedupAddrsSpec, List.map_map]
  exact List.map_id'' (fun x => rfl) _

/-- C1 counterexample: with peer id present, empty seed, a peer store
raising `NotFoundError` and peer routing raising `CustomRoutingError`
(which is not `NoPeerRoutersError`), the routing error does NOT propagate
to the caller: the dial fails with `NoValidAddressesError` instead. -/
theorem dialQueue_c1_counterexample :
    cEnvRoutingErr.findPeer "peerB"
      = .error ⟨"CustomRoutingError", "routing backend exploded"⟩ ∧
    calculateMultiaddrs cEnvRoutingErr (some "peerB") []
      = .error (.noValidAddresses "The dial request has no valid addresses") ∧
    calculateMultiaddrs cEnvRoutingErr (some "peerB") []
      ≠ .error (.js ⟨"CustomRoutingError", "routing backend exploded"⟩) := by
  refine ⟨rfl, rfl, ?_⟩
  decide

/-- C1 (amended): during address discovery with an empty seed, a
`NotFoundError` from `peerStore.get` is swallowed and every other
peer-store error propagates to the caller, while EVERY error raised by
`peerRouting.findPeer` is swallowed (non-`NoPeerRoutersError` routing
failures are merely logged). -/
theorem dialQueue_c1_amended :
    (∀ (env : Env) (pid : PeerId) (e : JsError),
        env.localPeerId ≠ pid → denyDialPeerSays env pid = false →
        env.peerStoreGet pid = .error e → e.name ≠ "NotFoundError" →
        calculateMultiaddrs env (some pid) [] = .error (.js e))
    ∧ (∀ (env : Env) (pid : PeerId) (e : JsError),
        env.peerStoreGet pid = .error e → e.name = "NotFoundError" →
        calculateMultiaddrs env (some pid) []
          = calculateMultiaddrs { env with peerStoreGet := fun _ => .ok [] } (some pid) [])
    ∧ (∀ (env : Env) (pid : PeerId) (e : JsError),
        env.findPeer pid = .error e →
        calculateMultiaddrs env (some pid) []
          = calculateMultiaddrs { env with findPeer := fun _ => .ok [] } (some pid) []) := by
  refine ⟨?_, ?_, ?_⟩
  · intro env pid e hlocal hgater hstore hname
    have hl : (env.localPeerId == pid) = false := beq_eq_false_iff_ne.mpr hlocal
    have hdisc : discoverAddrs env pid [] = .error (.js e) := by
      simp [discoverAddrs, hstore, hname]
    simp [calculateMultiaddrs, hl, hgater, hdisc]
  · intro env pid e hstore hname
    apply calculateMultiaddrs_congr env { env with peerStoreGet := fun _ => .ok [] }
      rfl rfl rfl rfl rfl rfl rfl rfl pid []
    simp only [List.map_nil]
    simp [discoverAddrs, hstore, hname]
  · intro env pid e hfp
    apply calculateMultiaddrs_congr env { env with findPeer := fun _ => .ok [] }
      rfl rfl rfl rfl rfl rfl rfl rfl pid []
    simp only [List.map_nil]
    cases hps : env.peerStoreGet pid with
    | error e2 =>
      by_cases hn : (e2.name == "NotFoundError") = true
      · simp [discoverAddrs, hps, hn, hfp]
      · have hn' : (e2.name == "NotFoundError") = false := by simpa using hn
        simp [discoverAddrs, hps, hn']
    | ok peerAddrs =>
      cases peerAddrs with
      | nil => simp [discoverAddrs, hps, hfp]
      | cons p ps => simp [discoverAddrs, hps]

/-- C1 witness for the amended theorem: a `DatabaseError` from the peer
store propagates to the caller. -/
theorem dialQueue_c1_witness :
    ("self" : PeerId) ≠ "peerB" ∧
    denyDialPeerSays cEnvStoreErr "peerB" = false ∧
    cEnvStoreErr.peerStoreGet "peerB" = .error ⟨"DatabaseError", "disk corrupt"⟩ ∧
    ("DatabaseError" : String) ≠ "NotFoundError" ∧
    calculateMultiaddrs cEnvStoreErr (some "peerB") []
      = .error (.js ⟨"DatabaseError", "disk corrupt"⟩) :=
  ⟨by decide, rfl, rfl, by decide,
    dialQueue_c1_amended.1 cEnvStoreErr "peerB" ⟨"DatabaseError", "disk corrupt"⟩
      (by decide) rfl rfl (by decide)⟩

/-- C2: per job, the attempt loop calls the transport dialer at most
`maxPeerAddrsToDial` times; when the cap is reached with addresses
remaining and no success, the job rejects with
`DialError("Peer had more than maxPeerAddrsToDial")` and makes no further
transport dial. -/
theorem dialQueue_c2 :
    (∀ (maxAddrs : Nat) (oracle : Nat → AttemptOutcome) (addrs : List Address),
        (attemptLoop maxAddrs oracle addrs 0 []).dials ≤ maxAddrs)
    ∧ (∀ (maxAddrs : Nat) (oracle : Nat → AttemptOutcome) (addrs : List Address),
        maxAddrs < addrs.length →
        (∀ i, i < maxAddrs → ∃ e, oracle i = .failure e false) →
        attemptLoop maxAddrs oracle addrs 0 []
          = .failed (.dialError "Peer had more than maxPeerAddrsToDial") maxAddrs ∧
        (attemptLoop maxAddrs oracle addrs 0 []).dials = maxAddrs) := by
  constructor
  · intro maxAddrs oracle addrs
    exact attemptLoop_dials_le maxAddrs oracle addrs 0 [] (Nat.zero_le _)
  · intro maxAddrs oracle addrs hlen hfail
    have h := attemptLoop_cap maxAddrs oracle addrs 0 [] (Nat.zero_le _) (by omega)
      (fun i _ hi => hfail i hi)
    exact ⟨h, by rw [h]; rfl⟩

/-- C2 witness: with a cap of 2, three addresses and every dial failing,
exactly 2 transport dials happen and the job rejects with the quota
error. -/
theorem dialQueue_c2_witness :
    2 < ([⟨"a", false⟩, ⟨"b", false⟩, ⟨"c", false⟩] : List Address).length ∧
    attemptLoop 2 cOracleFail [⟨"a", false⟩, ⟨"b", false⟩, ⟨"c", false⟩] 0 []
      = .failed (.dialError "Peer had more than maxPeerAddrsToDial") 2 :=
  ⟨by decide, (dialQueue_c2.2 2 cOracleFail [⟨"a", false⟩, ⟨"b", false⟩, ⟨"c", false⟩]
      (by decide) (fun _ _ => ⟨⟨"Error", "connection refused"⟩, rfl⟩)).1⟩

/-- C3 counterexample: with `maxPeerAddrsToDial = 2`, three addresses, two
attempted and both failing with the signal never aborted, the job rejects
with `DialError("Peer had more than maxPeerAddrsToDial")` — not with the
`AggregateError` over the two per-address errors that the claim
predicts. -/
theorem dialQueue_c3_counterexample :
    attemptLoop 2 cOracleFail [⟨"x", false⟩, ⟨"y", false⟩, ⟨"z", false⟩] 0 []
      = .failed (.dialError "Peer had more than maxPeerAddrsToDial") 2 ∧
    attemptLoop 2 cOracleFail [⟨"x", false⟩, ⟨"y", false⟩, ⟨"z", false⟩] 0 []
      ≠ .failed (.aggregate
          [⟨"Error", "connection refused"⟩, ⟨"Error", "connection refused"⟩]
          "All multiaddr dials failed") 2 := by
  refine ⟨rfl, ?_⟩
  decide

/-- C3 (amended): when every attempted address fails, the composite signal
is never aborted, and the address list is exhausted without hitting the
cap (at most `maxPeerAddrsToDial` addresses), the job rejects with the
sole address's own transport error when exactly one address was attempted
and otherwise with a single `AggregateError` wrapping all per-address
errors with message "All multiaddr dials failed"; the loop yields exactly
one outcome.  (When the cap is hit with addresses remaining the rejection
is the `DialError` of C2 instead.) -/
theorem dialQueue_c3_amended :
    ∀ (maxAddrs : Nat) (oracle : Nat → AttemptOutcome) (addrs : List Address)
      (errs : List JsError),
      errs.length = addrs.length →
      addrs.length ≤ maxAddrs →
      (∀ i, i < addrs.length → oracle i = .failure (errs.getD i ⟨"", ""⟩) false) →
      attemptLoop maxAddrs oracle addrs 0 []
        = if addrs.length == 1 then .failed (.js (errs.headD ⟨"", ""⟩)) 1
          else .failed (.aggregate errs "All multiaddr dials failed") addrs.length := by
  intro maxAddrs oracle addrs errs hlen hle hfail
  have h := attemptLoop_exhausted maxAddrs oracle addrs 0 [] errs hlen (by omega)
    (fun i hi => by simpa using hfail i hi)
  rw [h]
  simp only [List.nil_append, Nat.zero_add]
  rw [hlen]
  by_cases h1 : addrs.length = 1
  · simp [h1]
  · have h1' : (addrs.length == 1) = false := by simpa using h1
    simp [h1']

/-- C3 witness for the amended theorem: two addresses, two distinct
failures, signal never aborted — the job rejects with one
`AggregateError` wrapping both errors. -/
theorem dialQueue_c3_witness :
    attemptLoop 5 cOracleTwoErrs [⟨"a", false⟩, ⟨"b", false⟩] 0 []
      = .failed (.aggregate [⟨"ErrorA", "refused A"⟩, ⟨"ErrorB", "refused B"⟩]
          "All multiaddr dials failed") 2 := by
  have h := dialQueue_c3_amended 5 cOracleTwoErrs [⟨"a", false⟩, ⟨"b", false⟩]
    [⟨"ErrorA", "refused A"⟩, ⟨"ErrorB", "refused B"⟩] rfl (by decide)
    (fun i hi => by
      match i with
      | 0 => rfl
      | 1 => rfl)
  simpa using h

/-- C4: if a transport dial fails and the composite signal is aborted at
that point, the attempt loop stops immediately, rejecting with a
`TimeoutError` carrying the failed dial's error message; no further
address is attempted (exactly `k + 1` dials are made when the abort is
observed at attempt `k`). -/
theorem dialQueue_c4 :
    ∀ (maxAddrs k : Nat) (oracle : Nat → AttemptOutcome) (addrs : List Address)
      (e : JsError),
      k < addrs.length → k < maxAddrs →
      (∀ i, i < k → ∃ e2, oracle i = .failure e2 false) →
      oracle k = .failure e true →
      attemptLoop maxAddrs oracle addrs 0 [] = .failed (.timeout e.message) (k + 1) ∧
      (attemptLoop maxAddrs oracle addrs 0 []).dials = k + 1 := by
  intro maxAddrs k oracle addrs e hk hmax hprev habort
  have h := attemptLoop_abort maxAddrs k oracle e habort hmax addrs 0 [] (Nat.zero_le _)
    (by omega) (fun i _ hik => hprev i hik)
  exact ⟨h, by rw [h]; rfl⟩

/-- C4 witness: the first dial fails normally, the second fails with the
signal aborted — the job rejects with `TimeoutError("aborted mid-dial")`
after exactly 2 dials, never trying the third address. -/
theorem dialQueue_c4_witness :
    attemptLoop 5 cOracleAbort [⟨"a", false⟩, ⟨"b", false⟩, ⟨"c", false⟩] 0 []
      = .failed (.timeout "aborted mid-dial") 2 :=
  (dialQueue_c4 5 1 cOracleAbort [⟨"a", false⟩, ⟨"b", false⟩, ⟨"c", false⟩]
    ⟨"Error", "aborted mid-dial"⟩ (by decide) (by decide)
    (fun i hi => ⟨⟨"Error", "connection refused"⟩, by
      have h0 : i = 0 := by omega
      rw [h0]
      rfl⟩) rfl).1

/-- C5 counterexample: the connections list holds an OPEN connection to
peer `P`, yet because a closed connection to `P` precedes it in iteration
order, `dial` does not short-circuit — it enqueues a new job. -/
theorem dialQueue_c5_counterexample :
    (⟨"P", "addr2", "open"⟩ : Conn) ∈ cConnsClosedFirst ∧
    (⟨"P", "addr2", "open"⟩ : Conn).status = "open" ∧
    (⟨"P", "addr2", "open"⟩ : Conn).remotePeer = "P" ∧
    dialStep cConnsClosedFirst [] 5 false (some "P") []
      = (.enqueued, [⟨some "P", []⟩]) := by
  refine ⟨by decide, rfl, rfl, rfl⟩

/-- C5 (amended): the short-circuit keys on the FIRST connection in
iteration order that matches the target by remote peer or remote address:
when that first match is open, `dial` returns it and the queue is
untouched (so no job is enqueued and the transport manager is never
invoked); an open matching connection preceded by a non-open match does
not short-circuit. -/
theorem dialQueue_c5_amended :
    ∀ (conns : List Conn) (queue : List Job) (maxLen : Nat)
      (peerId : Option PeerId) (mas : List Multiaddr) (c : Conn),
      findExistingConnection conns false peerId mas = some c →
      c.status = "open" →
      dialStep conns queue maxLen false peerId mas = (.alreadyConnected c, queue) := by
  intro conns queue maxLen peerId mas c hfind hopen
  unfold dialStep
  rw [hfind]
  simp [hopen]

/-- C5 witness: with a single open connection to the target peer, `dial`
returns it and leaves the queue unchanged. -/
theorem dialQueue_c5_witness :
    findExistingConnection [⟨"P", "addr2", "open"⟩] false (some "P") []
      = some ⟨"P", "addr2", "open"⟩ ∧
    dialStep [⟨"P", "addr2", "open"⟩] [⟨none, ["z"]⟩] 5 false (some "P") []
      = (.alreadyConnected ⟨"P", "addr2", "open"⟩, [⟨none, ["z"]⟩]) :=
  ⟨rfl, dialQueue_c5_amended [⟨"P", "addr2", "open"⟩] [⟨none, ["z"]⟩] 5 (some "P") []
    ⟨"P", "addr2", "open"⟩ rfl rfl⟩

/-- C6: a dial whose target matches a queued job — equal peer id, or
address-set intersection — creates no new job: the queue keeps its
length, the first matching job's multiaddr set becomes the union of its
old set and the target's address strings, and the caller joins that
job's shared result. -/
theorem dialQueue_c6 :
    ∀ (conns : List Conn) (queue : List Job) (maxLen : Nat)
      (peerId : Option PeerId) (mas : List Multiaddr) (j : Job),
      (∀ c, findExistingConnection conns false peerId mas = some c → c.status ≠ "open") →
      queue.find? (jobMatches peerId mas) = some j →
      dialStep conns queue maxLen false peerId mas
          = (.joinedExisting, updateFirstMatch peerId mas queue) ∧
      (updateFirstMatch peerId mas queue).length = queue.length ∧
      (∃ i : Nat, queue[i]? = some j ∧
        (updateFirstMatch peerId mas queue)[i]?
          = some { j with multiaddrs := addToSet j.multiaddrs mas }) ∧
      (∀ x, x ∈ addToSet j.multiaddrs mas ↔ (x ∈ j.multiaddrs ∨ x ∈ mas)) := by
  intro conns queue maxLen peerId mas j hconn hfind
  refine ⟨?_, updateFirstMatch_length peerId mas queue,
    updateFirstMatch_found peerId mas queue j hfind,
    fun x => mem_addToSet mas j.multiaddrs x⟩
  unfold dialStep
  cases hfc : findExistingConnection conns false peerId mas with
  | none => simp [dialStep.dialStepAfterConnectionScan, hfind]
  | some c =>
    have hne : (c.status == "open") = false := beq_eq_false_iff_ne.mpr (hconn c hfc)
    simp [dialStep.dialStepAfterConnectionScan, hne, hfind]

/-- C6 witness: a second dial for peer `P` with a new address joins the
queued job for `P` and unions the new address into its set. -/
theorem dialQueue_c6_witness :
    ([⟨some "P", ["x"]⟩] : List Job).find? (jobMatches (some "P") ["y"])
      = some ⟨some "P", ["x"]⟩ ∧
    dialStep [] [⟨some "P", ["x"]⟩] 5 false (some "P") ["y"]
      = (.joinedExisting, [⟨some "P", ["x", "y"]⟩]) :=
  ⟨rfl, ((dialQueue_c6 [] [⟨some "P", ["x"]⟩] 5 (some "P") ["y"] ⟨some "P", ["x"]⟩
      (fun _ hc => Option.noConfusion hc) rfl).1).trans rfl⟩

/-- C7: with no usable existing connection and no matching queued job, a
dial arriving when `queue.size ≥ maxDialQueueLength` rejects with
`DialError("Dial queue is full")` and leaves the queue unchanged; an
accepted submission grows the queue by exactly one and never past the
bound. -/
theorem dialQueue_c7 :
    ∀ (conns : List Conn) (queue : List Job) (maxLen : Nat)
      (peerId : Option PeerId) (mas : List Multiaddr),
      (∀ c, findExistingConnection conns false peerId mas = some c → c.status ≠ "open") →
      queue.find? (jobMatches peerId mas) = none →
      (queue.length ≥ maxLen →
        dialStep conns queue maxLen false peerId mas = (.queueFull, queue)) ∧
      (queue.length < maxLen →
        dialStep conns queue maxLen false peerId mas
          = (.enqueued, queue ++ [Job.mk peerId (dedupStrings mas)]) ∧
        (queue ++ [Job.mk peerId (dedupStrings mas)]).length = queue.length + 1 ∧
        (queue ++ [Job.mk peerId (dedupStrings mas)]).length ≤ maxLen) := by
  intro conns queue maxLen peerId mas hconn hfind
  have hstep : dialStep conns queue maxLen false peerId mas
      = dialStep.dialStepAfterConnectionScan queue maxLen peerId mas := by
    unfold dialStep
    cases hfc : findExistingConnection conns false peerId mas with
    | none => rfl
    | some c =>
      have hne : (c.status == "open") = false := beq_eq_false_iff_ne.mpr (hconn c hfc)
      simp [hne]
  constructor
  · intro hfull
    rw [hstep]
    simp [dialStep.dialStepAfterConnectionScan, hfind, hfull]
  · intro hroom
    have hnotfull : ¬(queue.length ≥ maxLen) := by omega
    refine ⟨?_, ?_, ?_⟩
    · rw [hstep]
      simp [dialStep.dialStepAfterConnectionScan, hfind, hnotfull]
    · simp
    · simp only [List.length_append, List.length_cons, List.length_nil]
      omega

/-- C7 witness: with `maxDialQueueLength = 1` and one unrelated job queued,
a new dial rejects as queue-full and the queue is unchanged. -/
theorem dialQueue_c7_witness :
    ([⟨none, ["z"]⟩] : List Job).length ≥ 1 ∧
    dialStep [] [⟨none, ["z"]⟩] 1 false (some "P") ["y"] = (.queueFull, [⟨none, ["z"]⟩]) :=
  ⟨by decide, (dialQueue_c7 [] [⟨none, ["z"]⟩] 1 (some "P") ["y"]
      (fun _ hc => Option.noConfusion hc) rfl).1 (by decide)⟩

/-- C9: `isDialable` never rejects: any failure of `calculateMultiaddrs`
(invoked with no peer id on the given multiaddrs) yields `false`; on
success it yields `true`, except that with `runOnLimitedConnection =
false` it is `true` exactly when at least one calculated address is not a
circuit-relay address. -/
theorem dialQueue_c9 :
    ∀ (env : Env) (mas : List Multiaddr) (runLim : Option Bool),
      (∀ f, calculateMultiaddrs env none (dedupStrings mas) = .error f →
        isDialable env mas runLim = false) ∧
      (∀ addresses, calculateMultiaddrs env none (dedupStrings mas) = .ok addresses →
        runLim ≠ some false → isDialable env mas runLim = true) ∧
      (∀ addresses, calculateMultiaddrs env none (dedupStrings mas) = .ok addresses →
        isDialable env mas (some false)
          = addresses.any (fun addr => !(env.circuitMatches addr.multiaddr))) := by
  intro env mas runLim
  refine ⟨?_, ?_, ?_⟩
  · intro f hf
    simp [isDialable, hf]
  · intro addresses hok hne
    have hr : (runLim == some false) = false := by
      cases runLim with
      | none => rfl
      | some b =>
        cases b with
        | false => exact absurd rfl hne
        | true => rfl
    simp [isDialable, hok, hr]
  · intro addresses hok
    simp [isDialable, hok]

/-- C9 witness: when no transport can dial the address, the calculation
fails with `NoValidAddressesError` and `isDialable` returns `false`. -/
theorem dialQueue_c9_witness :
    calculateMultiaddrs cEnvNoTransport none (dedupStrings ["ma1"])
      = .error (.noValidAddresses "The dial request has no valid addresses") ∧
    isDialable cEnvNoTransport ["ma1"] none = false :=
  ⟨rfl, (dialQueue_c9 cEnvNoTransport ["ma1"] none).1
    (.noValidAddresses "The dial request has no valid addresses") rfl⟩

/-- C10: after a job's address calculation succeeds (and before any
transport dial) every calculated address string is in the job's multiaddr
set; consequently a later dial targeting one of those strings matches a
queued job and is joined to an in-flight job instead of creating a new
one. -/
theorem dialQueue_c10 :
    ∀ (job : Job) (addrsToDial : List Address),
      (∀ a, a ∈ addrsToDial → a.multiaddr ∈ (jobAfterCalc job addrsToDial).multiaddrs) ∧
      (∀ s, s ∈ job.multiaddrs → s ∈ (jobAfterCalc job addrsToDial).multiaddrs) ∧
      (∀ (conns : List Conn) (queue : List Job) (maxLen : Nat)
          (peerId : Option PeerId) (mas : List Multiaddr),
        (∀ c, findExistingConnection conns false peerId mas = some c → c.status ≠ "open") →
        jobAfterCalc job addrsToDial ∈ queue →
        (∃ ma, ma ∈ mas ∧ ma ∈ (jobAfterCalc job addrsToDial).multiaddrs) →
        (dialStep conns queue maxLen false peerId mas).1 = .joinedExisting) := by
  intro job addrsToDial
  refine ⟨?_, ?_, ?_⟩
  · intro a ha
    exact (mem_addToSet _ _ _).mpr (Or.inr (List.mem_map_of_mem _ ha))
  · intro s hs
    exact (mem_addToSet _ _ _).mpr (Or.inl hs)
  · intro conns queue maxLen peerId mas hconn hjob hex
    obtain ⟨ma, hmem, hin⟩ := hex
    have hmatch : jobMatches peerId mas (jobAfterCalc job addrsToDial) = true := by
      simp only [jobMatches, Bool.or_eq_true]
      right
      rw [List.any_eq_true]
      refine ⟨ma, hmem, ?_⟩
      rw [List.contains_eq_any_beq, List.any_eq_true]
      exact ⟨ma, hin, by simp⟩
    have hsome : (queue.find? (jobMatches peerId mas)).isSome :=
      List.find?_isSome.mpr ⟨_, hjob, hmatch⟩
    obtain ⟨r, hr⟩ := Option.isSome_iff_exists.mp hsome
    unfold dialStep
    cases hfc : findExistingConnection conns false peerId mas with
    | none => simp [dialStep.dialStepAfterConnectionScan, hr]
    | some c =>
      have hne : (c.status == "open") = false := beq_eq_false_iff_ne.mpr (hconn c hfc)
      simp [dialStep.dialStepAfterConnectionScan, hne, hr]

/-- C10 witness: a job for peer `P` whose calculation produced `res1`
absorbs `res1` into its set, and a later dial targeting `res1` (with no
peer id) joins the in-flight job. -/
theorem dialQueue_c10_witness :
    (jobAfterCalc ⟨some "P", []⟩ [⟨"res1", false⟩]).multiaddrs = ["res1"] ∧
    (dialStep [] [jobAfterCalc ⟨some "P", []⟩ [⟨"res1", false⟩]] 5 false none ["res1"]).1
      = .joinedExisting :=
  ⟨rfl, (dialQueue_c10 ⟨some "P", []⟩ [⟨"res1", false⟩]).2.2 [] _ 5 none ["res1"]
    (fun _ hc => Option.noConfusion hc) (by decide) ⟨"res1", by decide, by decide⟩⟩

end DialQueueSpec
